import Mathlib

/-!
Verification of the discedit synchronization engine (main.go) against its
natural-language specification.  The Go entity model, save operations,
watcher loop body, final reconciliation, and the double-JSON-encoding of
draft payloads are shallowly embedded as Lean definitions; timestamps are
modelled as integers, pointers as `Option`, and remote/file-system effects
as explicit oracle inputs.
-/

deriving instance DecidableEq for Except

namespace Discedit

/-- Embeds Go `type DraftData struct` (main.go): the draft payload with
action kind, title, reply text, recorded original text, two timing
counters, target post ID and whisper flag. -/
structure DraftData where
  action : String
  title : String
  reply : String
  originalText : String
  composerTime : Int
  typingTime : Int
  postId : Int
  whisper : Bool
  deriving Repr, DecidableEq

/-- Embeds Go `type Draft struct`: a server-held draft with key, topic id,
optimistic-concurrency sequence and payload.  The Go `Data *DraftData`
pointer is non-nil at every construction site (`LoadDraft` only builds a
`Draft` when the response carried data; `SaveDraft` builds it with a fresh
payload), so it is embedded as a plain field. -/
structure Draft where
  key : String
  topicId : Int
  sequence : Int
  data : DraftData
  deriving Repr, DecidableEq

/-- Embeds Go `type Post struct`: the canonical stored content.
`UpdatedAt` is modelled as an integer timestamp. -/
structure Post where
  id : Int
  username : String
  cooked : String
  raw : String
  updatedAt : Int
  topicId : Int
  blurb : String
  draftSequence : Int
  deriving Repr, DecidableEq

/-- Embeds Go `type Topic struct`: thread metadata plus the mutable `Post`
reference and the optional `Draft` (`*Draft` pointer becomes `Option`).
The unexported `content` byte cache is unused by the program and omitted;
`BumpedAt` is an integer timestamp. -/
structure Topic where
  id : Int
  slug : String
  title : String
  category : Int
  bumpedAt : Int
  draftKey : String
  draftSequence : Int
  post : Post
  draft : Option Draft
  deriving Repr, DecidableEq

/-- Go `func (p *Post) EditText() string`: returns `p.Raw`. -/
def Post.editText (p : Post) : String := p.raw

/-- Go `func (p *Post) OriginalText() string`: returns `p.Raw`. -/
def Post.originalText (p : Post) : String := p.raw

/-- Go `func (d *Draft) EditText() string`: returns `d.Data.Reply`. -/
def Draft.editText (d : Draft) : String := d.data.reply

/-- Go `func (d *Draft) OriginalText() string`: returns `d.Data.OriginalText`. -/
def Draft.originalText (d : Draft) : String := d.data.originalText

/-- Go `func (t *Topic) EditText() string`: resolves through the draft
when present, else through the post. -/
def Topic.editText (t : Topic) : String :=
  match t.draft with
  | some d => d.editText
  | none => t.post.editText

/-- Go `func (t *Topic) OriginalText() string`: resolves through the draft
when present, else through the post. -/
def Topic.originalText (t : Topic) : String :=
  match t.draft with
  | some d => d.originalText
  | none => t.post.originalText

/-- Go `func (t *Topic) CheckDraft() error`: reports an error exactly when
a draft is present and its recorded original text differs from the post's
current one; `none` models a nil error. -/
def Topic.checkDraft (t : Topic) : Option String :=
  match t.draft with
  | some d =>
      if d.originalText ≠ t.post.originalText then
        some "content was changed after existing draft started (see -ignore-draft and -force-draft)"
      else
        none
  | none => none

/-- Go `unicode.IsSpace`, the predicate used by `bytes.TrimSpace` and
`strings.TrimSpace`: the Unicode white-space property. -/
def isSpaceGo (c : Char) : Bool :=
  let n := c.toNat
  (9 ≤ n && n ≤ 13) || n == 32 || n == 0x85 || n == 0xA0 || n == 0x1680 ||
    (0x2000 ≤ n && n ≤ 0x200A) || n == 0x2028 || n == 0x2029 || n == 0x202F ||
    n == 0x205F || n == 0x3000

/-- Removes leading and trailing white space from a character list
(`bytes.TrimSpace` / `strings.TrimSpace`). -/
def trimChars (l : List Char) : List Char :=
  ((l.dropWhile isSpaceGo).reverse.dropWhile isSpaceGo).reverse

/-- `strings.TrimSpace` on strings. -/
def trimSpace (s : String) : String := ⟨trimChars s.data⟩

/-- Go `func fileChanged(filename, original string)`: reads the file
(`none` models a read error), trims both sides, and reports whether the
trimmed content differs from the trimmed original and whether it is
empty. -/
def fileChangedM (content : Option String) (original : String) :
    Except String (Bool × Bool) :=
  match content with
  | none => .error "cannot tell whether file changed"
  | some data =>
      let trimmed := trimSpace data
      .ok (trimmed ≠ trimSpace original, trimmed.length == 0)

/-- Go `func (f *Forum) SaveTopic(topic *Topic, filename string) error`:
reads the edited file (`content`, `none` models a read error), trims it,
issues the PUT (its outcome is the oracle `resp`: the decoded `post` field
on HTTP 200, the error produced by `Forum.do` otherwise), and only on
success mutates the topic: the post is replaced by the response post with
its raw text overwritten by the trimmed local content, the draft is
cleared, and the draft sequence is taken from the response post.  The
returned pair is the (possibly updated) topic and the Go error value. -/
def saveTopic (t : Topic) (content : Option String) (resp : Except String Post) :
    Topic × Option String :=
  match content with
  | none => (t, some "cannot read edited content")
  | some data =>
      let raw := trimSpace data
      match resp with
      | .error e => (t, some e)
      | .ok p =>
          let post := { p with raw := raw }
          ({ t with post := post, draft := none, draftSequence := post.draftSequence },
           none)

/-- The fields of the draft-save response that `Forum.SaveDraft`
consults: the `success` marker and the new draft sequence. -/
structure DraftSaveResp where
  success : String
  draftSequence : Int
  deriving Repr, DecidableEq

/-- Go `func (f *Forum) SaveDraft(topic *Topic, filename string) error`:
reads the edited file (untrimmed), builds a fresh draft envelope from the
topic's current state, posts it (outcome is the oracle `resp`), treats any
`success` value other than `"OK"` as a failure, and only on success
installs the new draft and the response's draft sequence on the topic. -/
def saveDraft (t : Topic) (content : Option String)
    (resp : Except String DraftSaveResp) : Topic × Option String :=
  match content with
  | none => (t, some "cannot read edited content")
  | some data =>
      let draft : Draft :=
        { key := "topic_" ++ toString t.id, topicId := t.id, sequence := t.draftSequence,
          data := { reply := data, action := "edit", title := t.title,
                    composerTime := 4321, typingTime := 1234, postId := t.post.id,
                    originalText := t.originalText, whisper := false } }
      match resp with
      | .error e => (t, some e)
      | .ok r =>
          if r.success ≠ "OK" then
            (t, some ("cannot update draft: " ++
              (if r.success = "" then "unknown error" else r.success)))
          else
            ({ t with draft := some draft, draftSequence := r.draftSequence }, none)

/-- The state the watcher goroutine in `edit` carries across iterations:
the last observed modification time (`stat`, modelled as an integer), the
last-known baseline text (`text`, initialised from `Topic.EditText`), and
the shared topic. -/
structure TickState where
  modTime : Int
  text : String
  topic : Topic
  deriving Repr, DecidableEq

/-- The per-iteration environment of the watcher: the `os.Stat` result
(`none` models a stat error), the file content seen by this iteration
(`none` models a read error; the Go code re-reads the file inside
`fileChanged` and inside each save, all within one tick, modelled as one
read), and the oracles for the two possible remote calls. -/
structure TickInput where
  curstat : Option Int
  content : Option String
  postResp : Except String Post
  draftResp : Except String DraftSaveResp
  deriving Repr, DecidableEq

/-- Outcome of one watcher iteration: the updated state, and whether a
direct post save and/or a draft save were attempted.  The goroutine has no
way to return an error: failures are only debug-logged and the loop
continues. -/
structure TickResult where
  state : TickState
  postAttempted : Bool
  draftAttempted : Bool
  deriving Repr, DecidableEq

/-- One iteration of the watcher goroutine body in `edit` (main.go):
stat the file (`continue` on error), skip when the modification time is
unchanged, run `fileChanged` against the baseline text (`continue` on
error, on no difference, or on empty content); otherwise, with live-edit
enabled attempt `SaveTopic` and on its failure fall back to `SaveDraft`;
with live-edit disabled always `SaveDraft`.  On a failed draft save the
loop `continue`s without refreshing `stat`/`text`; after a successful
action `stat` is set to the observed time and `text` is refreshed from
`Topic.EditText`. -/
def watcherTick (live : Bool) (s : TickState) (i : TickInput) : TickResult :=
  match i.curstat with
  | none => ⟨s, false, false⟩
  | some m =>
      if m = s.modTime then ⟨s, false, false⟩
      else
        match fileChangedM i.content s.text with
        | .error _ => ⟨s, false, false⟩
        | .ok (different, empty) =>
            if !different || empty then ⟨s, false, false⟩
            else
              if live then
                let r1 := saveTopic s.topic i.content i.postResp
                if r1.2 = none then ⟨⟨m, r1.1.editText, r1.1⟩, true, false⟩
                else
                  let r2 := saveDraft r1.1 i.content i.draftResp
                  if r2.2 = none then ⟨⟨m, r2.1.editText, r2.1⟩, true, true⟩
                  else ⟨⟨s.modTime, s.text, r2.1⟩, true, true⟩
              else
                let r2 := saveDraft s.topic i.content i.draftResp
                if r2.2 = none then ⟨⟨m, r2.1.editText, r2.1⟩, false, true⟩
                else ⟨⟨s.modTime, s.text, r2.1⟩, false, true⟩

/-- The status handling of `Forum.do` (main.go): maps the HTTP status of
a response to the Go error value, given the request path and the decoded
`errors` array of the body (empty when absent or undecodable).  Status 200
yields no error; 401/404 a not-found error; 409 the verbatim
concurrent-edit message; anything else a generic message built from the
body's first error string when present. -/
def doStatusError (status : Nat) (path : String) (errorsField : List String) :
    Option String :=
  if status = 200 then none
  else if status = 401 || status = 404 then some ("resource not found: " ++ path)
  else if status = 409 then some "someone else edited the same content meanwhile"
  else
    match errorsField with
    | e :: _ => some ("cannot perform request: " ++ e)
    | [] => some ("cannot perform request: got " ++ toString status ++ " status")

/-- The environment of `run`'s post-edit reconciliation (main.go):
the temporary file name and error returned by `edit`, the file content at
reconciliation time (`none` models a read error), the topic state after
the watcher finished (live-edit saves may have advanced it), the original
text captured before editing, the live-edit flag, and the oracle for the
final `SaveTopic` call. -/
structure RunEnv where
  filename : String
  editErr : Option String
  content : Option String
  topic : Topic
  initial : String
  live : Bool
  saveResp : Except String Post
  deriving Repr, DecidableEq

/-- Observable outcome of `run`'s reconciliation: whether the deferred
`renameToLast` backup ran on exit, whether the temporary file was removed,
whether the final direct save succeeded, the error returned by `run`
(`none` is success), and the logged message in the unchanged case. -/
structure RunOutcome where
  backedUp : Bool
  removed : Bool
  saved : Bool
  result : Option String
  message : Option String
  deriving Repr, DecidableEq

/-- The reconciliation tail of `run` (main.go): if `edit` failed,
return its error (the `different`/`empty` flags keep their zero values, so
no backup is registered).  Otherwise run `fileChanged` against the
topic's current original text; a deferred `renameToLast` is registered
exactly when the file name is non-empty and the content is a real edit
(different and non-empty), and it runs on every exit path afterwards.
Empty content removes the file and aborts with an error; unchanged
content removes the file and succeeds with a message chosen by whether
live edits advanced the original text; changed content triggers the final
`SaveTopic`, whose error (if any) becomes `run`'s result.  The
reconciliation never saves a draft. -/
def runReconcile (env : RunEnv) : RunOutcome :=
  match env.editErr with
  | some e => ⟨false, false, false, some e, none⟩
  | none =>
      match fileChangedM env.content env.topic.originalText with
      | .error e => ⟨false, false, false, some e, none⟩
      | .ok (different, empty) =>
          let backup := env.filename ≠ "" && different && !empty
          if empty then ⟨backup, true, false, some "no content provided, aborting", none⟩
          else if !different then
            if env.live && env.initial ≠ env.topic.originalText then
              ⟨backup, true, false, none, some "Changes already saved."⟩
            else ⟨backup, true, false, none, some "No changes to save."⟩
          else
            match saveTopic env.topic env.content env.saveResp with
            | (_, some e) => ⟨backup, false, false, some e, none⟩
            | (_, none) => ⟨backup, false, true, none, none⟩

/-- The synchronization events of the foreground thread of `edit`
(main.go), in program order: running the editor to termination,
closing the `stop` channel, receiving on the `done` channel, and
returning. -/
inductive FgEvent where
  | runEditor
  | closeStop
  | awaitDone
  | returnOk
  | returnErr
  deriving Repr, DecidableEq

/-- The foreground control flow of `edit` after spawning the watcher
(main.go): `cmd.Run()` blocks until the editor terminates; on a
run error the function returns that error at once; only on success does it
close `stop` and wait on `done` before returning. -/
def editForeground (editorOk : Bool) : List FgEvent :=
  if editorOk then
    [FgEvent.runEditor, FgEvent.closeStop, FgEvent.awaitDone, FgEvent.returnOk]
  else
    [FgEvent.runEditor, FgEvent.returnErr]

/-- A sample post used by concrete witnesses. -/
def samplePost : Post :=
  { id := 7, username := "niemeyer", cooked := "<p>Hello world</p>", raw := "Hello world",
    updatedAt := 100, topicId := 3, blurb := "", draftSequence := 2 }

/-- A sample draft payload used by concrete witnesses. -/
def sampleDraftData : DraftData :=
  { action := "edit", title := "A title", reply := "Hello there",
    originalText := "Hello world", composerTime := 4321, typingTime := 1234,
    postId := 7, whisper := false }

/-- A sample topic without a draft, used by concrete witnesses. -/
def sampleTopicNoDraft : Topic :=
  { id := 3, slug := "a-topic", title := "A title", category := 1, bumpedAt := 99,
    draftKey := "", draftSequence := 2, post := samplePost, draft := none }

/-- A sample topic carrying a draft, used by concrete witnesses. -/
def sampleTopicWithDraft : Topic :=
  { sampleTopicNoDraft with
      draft := some { key := "topic_3", topicId := 3, sequence := 2, data := sampleDraftData } }

/-- A sample watcher state used by concrete witnesses: baseline text
matching the sample post, last stat time 0. -/
def sampleTickState : TickState := ⟨0, "Hello world", sampleTopicNoDraft⟩

/-- A sample tick input used by concrete witnesses: a newer modification
time and a real edit, with a successful draft-save oracle. -/
def sampleTickInput : TickInput :=
  { curstat := some 1, content := some "Hello there",
    postResp := .error "unused", draftResp := .ok ⟨"OK", 3⟩ }

/-- A tick input whose post-save oracle fails with exactly the HTTP 409
error produced by `Forum.do`, while the draft-save oracle succeeds. -/
def conflictTickInput : TickInput :=
  { curstat := some 1, content := some "Hello there",
    postResp := .error "someone else edited the same content meanwhile",
    draftResp := .ok ⟨"OK", 3⟩ }

/-- A reconciliation environment for a session in which the editor
command failed after a real edit was written to the file. -/
def abortedEditEnv : RunEnv :=
  { filename := "/home/user/.discedit.42.md",
    editErr := some "cannot edit file /home/user/.discedit.42.md: exit status 1",
    content := some "Edited content!", topic := sampleTopicNoDraft,
    initial := "Hello world", live := false, saveResp := .error "unused" }

/-- A reconciliation environment with a whitespace-only edited file,
live-edit on, and a non-empty baseline. -/
def emptyFileEnv : RunEnv :=
  { filename := "/home/user/.discedit.42.md", editErr := none,
    content := some "  \n ", topic := sampleTopicNoDraft,
    initial := "Hello world", live := true, saveResp := .error "unused" }

/-- A reconciliation environment with a real edit whose final save fails
with a generic server error. -/
def failedSaveEnv : RunEnv :=
  { filename := "/home/user/.discedit.42.md", editErr := none,
    content := some "Hello there", topic := sampleTopicNoDraft,
    initial := "Hello world", live := false,
    saveResp := .error "cannot perform request: got 500 status" }

/-- A reconciliation environment with a real edit whose final save fails
with the HTTP 409 concurrent-edit error. -/
def conflictSaveEnv : RunEnv :=
  { filename := "/home/user/.discedit.42.md", editErr := none,
    content := some "Hello there", topic := sampleTopicNoDraft,
    initial := "Hello world", live := true,
    saveResp := .error "someone else edited the same content meanwhile" }

/-- Lowercase hex digit for a value below 16, as used by Go's JSON
encoder when emitting a numeric escape. -/
def hexDigitChar (n : Nat) : Char :=
  if n < 10 then Char.ofNat (48 + n) else Char.ofNat (87 + n)

/-- Value of a hex digit character, accepting both cases (the JSON
decoder's hex reader). -/
def hexVal (c : Char) : Option Nat :=
  if '0' ≤ c ∧ c ≤ '9' then some (c.toNat - 48)
  else if 'a' ≤ c ∧ c ≤ 'f' then some (c.toNat - 87)
  else if 'A' ≤ c ∧ c ≤ 'F' then some (c.toNat - 55)
  else none

/-- Encoding of one character inside a JSON string by Go's
`encoding/json` encoder with its default HTML escaping (the encoder used
by `json.Marshal` in `DraftData.MarshalJSON` and `Forum.do`): quote,
backslash, newline, carriage return and tab get two-character escapes;
other control characters and the HTML-sensitive `<`, `>`, `&` get
`\u00xx`; U+2028 and U+2029 get `\u202x`; everything else is emitted
as itself. -/
def encodeChar (c : Char) : List Char :=
  if c = '\"' then ['\\', '\"']
  else if c = '\\' then ['\\', '\\']
  else if c = Char.ofNat 10 then ['\\', 'n']
  else if c = Char.ofNat 13 then ['\\', 'r']
  else if c = Char.ofNat 9 then ['\\', 't']
  else if c.toNat < 32 ∨ c = '<' ∨ c = '>' ∨ c = '&' then
    ['\\', 'u', '0', '0', hexDigitChar (c.toNat / 16), hexDigitChar (c.toNat % 16)]
  else if c.toNat = 0x2028 ∨ c.toNat = 0x2029 then
    ['\\', 'u', '2', '0', '2', hexDigitChar (c.toNat % 16)]
  else [c]

/-- Body of a JSON-encoded string (between the quotes). -/
def encodeStringBody (s : List Char) : List Char :=
  (s.map encodeChar).flatten

/-- A full JSON string value: quote, escaped body, quote.  This is
`json.Marshal` applied to a Go string. -/
def quoteChars (s : List Char) : List Char :=
  '\"' :: encodeStringBody s ++ ['\"']

/-- One-character JSON escapes accepted by the decoder. -/
def simpleEscape (e : Char) : Option Char :=
  if e = '\"' ∨ e = '\\' ∨ e = '/' then some e
  else if e = 'b' then some (Char.ofNat 8)
  else if e = 'f' then some (Char.ofNat 12)
  else if e = 'n' then some (Char.ofNat 10)
  else if e = 'r' then some (Char.ofNat 13)
  else if e = 't' then some (Char.ofNat 9)
  else none

/-- JSON string-body decoder (Go's `encoding/json` unquoting, from the
opening quote up to and including the closing quote): plain characters
(at or above 0x20, neither quote nor backslash) stand for themselves,
backslash escapes and 4-hex-digit `\ u` escapes are decoded.  Unlike Go,
a surrogate `\ u` value is rejected instead of becoming a replacement
character; the encoder never emits surrogates, so the two decoders agree
on every encoder output. -/
def parseStringBody : List Char → Option (List Char × List Char)
  | [] => none
  | c :: rest =>
      if c = '\"' then some ([], rest)
      else if c = '\\' then
        match rest with
        | [] => none
        | e :: rest2 =>
            if e = 'u' then
              match rest2 with
              | h1 :: h2 :: h3 :: h4 :: rest3 =>
                  match hexVal h1, hexVal h2, hexVal h3, hexVal h4 with
                  | some a, some b, some d, some f =>
                      let n := ((a * 16 + b) * 16 + d) * 16 + f
                      if 0xD800 ≤ n ∧ n < 0xE000 then none
                      else
                        match parseStringBody rest3 with
                        | some (s, r) => some (Char.ofNat n :: s, r)
                        | none => none
                  | _, _, _, _ => none
              | _ => none
            else
              match simpleEscape e with
              | some ec =>
                  match parseStringBody rest2 with
                  | some (s, r) => some (ec :: s, r)
                  | none => none
              | none => none
      else if 32 ≤ c.toNat then
        match parseStringBody rest with
        | some (s, r) => some (c :: s, r)
        | none => none
      else none

/-- A JSON string value: an opening quote followed by a body. -/
def parseQuotedString (l : List Char) : Option (List Char × List Char) :=
  match l with
  | '\"' :: rest => parseStringBody rest
  | _ => none

/-- The decimal digit character for a value below 10. -/
def digitToChar (d : Nat) : Char := Char.ofNat (48 + d)

/-- Decimal rendering of a natural number, as Go's encoder emits
integers. -/
def natToChars (n : Nat) : List Char :=
  if n = 0 then ['0'] else (Nat.digits 10 n).reverse.map digitToChar

/-- Decimal rendering of a Go `int`. -/
def intToChars (i : Int) : List Char :=
  if i < 0 then '-' :: natToChars i.natAbs else natToChars i.toNat

/-- Value of a list of decimal digit characters, most significant
first. -/
def digitsVal (ds : List Char) : Nat :=
  ds.foldl (fun a c => a * 10 + (c.toNat - 48)) 0

/-- Greedy decimal-number decoder. -/
def parseNat (l : List Char) : Option (Nat × List Char) :=
  let ds := l.takeWhile fun c => c.isDigit
  let rest := l.dropWhile fun c => c.isDigit
  if ds.isEmpty then none else some (digitsVal ds, rest)

/-- Signed decimal decoder for the integer fields. -/
def parseInt (l : List Char) : Option (Int × List Char) :=
  match l with
  | [] => none
  | c :: rest =>
      if c = '-' then
        match parseNat rest with
        | some (n, r) => some (-(n : Int), r)
        | none => none
      else
        match parseNat (c :: rest) with
        | some (n, r) => some ((n : Int), r)
        | none => none

/-- JSON booleans. -/
def boolToChars (b : Bool) : List Char :=
  if b then ['t', 'r', 'u', 'e'] else ['f', 'a', 'l', 's', 'e']

/-- Consumes an expected literal chunk from the input. -/
def expects : List Char → List Char → Option (List Char)
  | [], l => some l
  | _ :: _, [] => none
  | c :: cs, x :: xs => if x = c then expects cs xs else none

/-- JSON boolean decoder. -/
def parseBool (l : List Char) : Option (Bool × List Char) :=
  match expects ['t', 'r', 'u', 'e'] l with
  | some r => some (true, r)
  | none =>
      match expects ['f', 'a', 'l', 's', 'e'] l with
      | some r => some (false, r)
      | none => none

/-- A quoted JSON object key followed by its colon.  The Go encoder runs
keys through the string escaper too; for the `DraftData` field names the
escaper is the identity, so the quoted key is emitted literally. -/
def keyStr (k : String) : List Char := '\"' :: k.data ++ ['\"', ':']

/-- The inner JSON encoding of `DraftData`: `json.Marshal` on the
`draftData` alias struct, emitting the fields in declaration order with
the tag names of main.go, strings through the escaper, integers
in decimal, the whisper flag as a JSON boolean. -/
def marshalDraftDataChars (dd : DraftData) : List Char :=
  '\x7b' :: keyStr "action" ++ quoteChars dd.action.data
    ++ ',' :: keyStr "title" ++ quoteChars dd.title.data
    ++ ',' :: keyStr "reply" ++ quoteChars dd.reply.data
    ++ ',' :: keyStr "originalText" ++ quoteChars dd.originalText.data
    ++ ',' :: keyStr "composerTime" ++ intToChars dd.composerTime
    ++ ',' :: keyStr "typingTime" ++ intToChars dd.typingTime
    ++ ',' :: keyStr "postId" ++ intToChars dd.postId
    ++ ',' :: keyStr "whisper" ++ boolToChars dd.whisper
    ++ ['\x7d']

/-- An expected key literal followed by a JSON string value. -/
def parseStrField (key : List Char) (l : List Char) : Option (List Char × List Char) :=
  match expects key l with
  | none => none
  | some l1 => parseQuotedString l1

/-- An expected key literal followed by a JSON integer. -/
def parseIntField (key : List Char) (l : List Char) : Option (Int × List Char) :=
  match expects key l with
  | none => none
  | some l1 => parseInt l1

/-- The four leading string fields of the `DraftData` object, in the
declaration order of main.go. -/
def parseStringsPart (l : List Char) :
    Option ((List Char × List Char × List Char × List Char) × List Char) :=
  match parseStrField ('\x7b' :: keyStr "action") l with
  | none => none
  | some (action, l1) =>
      match parseStrField (',' :: keyStr "title") l1 with
      | none => none
      | some (title, l2) =>
          match parseStrField (',' :: keyStr "reply") l2 with
          | none => none
          | some (reply, l3) =>
              match parseStrField (',' :: keyStr "originalText") l3 with
              | none => none
              | some (originalText, l4) =>
                  some ((action, title, reply, originalText), l4)

/-- The three integer fields of the `DraftData` object. -/
def parseNumsPart (l : List Char) : Option ((Int × Int × Int) × List Char) :=
  match parseIntField (',' :: keyStr "composerTime") l with
  | none => none
  | some (composerTime, l1) =>
      match parseIntField (',' :: keyStr "typingTime") l1 with
      | none => none
      | some (typingTime, l2) =>
          match parseIntField (',' :: keyStr "postId") l2 with
          | none => none
          | some (postId, l3) => some ((composerTime, typingTime, postId), l3)

/-- The inner JSON decoding of `DraftData`: `json.Unmarshal` into the
`draftData` alias struct, modelled on the canonical shape the encoder
emits (the field order and spacing `json.Marshal` produces, which is
exactly what the write path stores). -/
def parseDraftDataChars (l : List Char) : Option (DraftData × List Char) :=
  match parseStringsPart l with
  | none => none
  | some ((action, title, reply, originalText), l1) =>
      match parseNumsPart l1 with
      | none => none
      | some ((composerTime, typingTime, postId), l2) =>
          match expects (',' :: keyStr "whisper") l2 with
          | none => none
          | some l3 =>
              match parseBool l3 with
              | none => none
              | some (whisper, l4) =>
                  match expects ['\x7d'] l4 with
                  | none => none
                  | some l5 =>
                      some ({ action := ⟨action⟩, title := ⟨title⟩, reply := ⟨reply⟩,
                              originalText := ⟨originalText⟩, composerTime := composerTime,
                              typingTime := typingTime, postId := postId,
                              whisper := whisper }, l5)

/-- Go `func (dd *DraftData) MarshalJSON() ([]byte, error)`: the payload
is serialized to its own JSON representation, and that representation is
then encoded as a JSON string value (the double-encoding contract). -/
def draftDataMarshalJSON (dd : DraftData) : List Char :=
  quoteChars (marshalDraftDataChars dd)

/-- Go `func (dd *DraftData) UnmarshalJSON(data []byte) error`: the input
is decoded as one JSON string value, and the resulting text is decoded as
the payload's own JSON representation; trailing garbage at either level
is an error. -/
def draftDataUnmarshalJSON (l : List Char) : Option DraftData :=
  match parseQuotedString l with
  | none => none
  | some (raw, l1) =>
      if l1 = [] then
        match parseDraftDataChars raw with
        | none => none
        | some (dd, l2) => if l2 = [] then some dd else none
      else none

/-- String-level write path of the draft payload. -/
def DraftData.marshalJSON (dd : DraftData) : String :=
  ⟨draftDataMarshalJSON dd⟩

/-- String-level read path of the draft payload. -/
def DraftData.unmarshalJSON (s : String) : Option DraftData :=
  draftDataUnmarshalJSON s.data

/-- Helper: a failed `SaveTopic` returns the topic unchanged (the Go code
only assigns to the topic after the error checks). -/
theorem saveTopic_fst_of_error (t : Topic) (content : Option String)
    (resp : Except String Post) (h : (saveTopic t content resp).2 ≠ none) :
    (saveTopic t content resp).1 = t := by
  cases content with
  | none => rfl
  | some data =>
      cases resp with
      | error e => rfl
      | ok p => simp [saveTopic] at h

/-- Helper: a failed `SaveDraft` returns the topic unchanged. -/
theorem saveDraft_fst_of_error (t : Topic) (content : Option String)
    (resp : Except String DraftSaveResp) (h : (saveDraft t content resp).2 ≠ none) :
    (saveDraft t content resp).1 = t := by
  cases content with
  | none => rfl
  | some data =>
      cases resp with
      | error e => rfl
      | ok r =>
          by_cases hs : r.success ≠ "OK"
          · simp [saveDraft, hs]
          · simp [saveDraft, hs] at h

/-- Helper: `run`'s reconciliation on a real edit (read succeeded,
non-empty, different from the current baseline): the backup rename is
registered exactly when the file name is non-empty, a failed final save
propagates its error without removing the file, and a successful final
save reports success. -/
theorem runReconcile_realEdit (env : RunEnv) (c : String)
    (hedit : env.editErr = none) (hc : env.content = some c)
    (hdiff : trimSpace c ≠ trimSpace env.topic.originalText)
    (hne : (trimSpace c).length ≠ 0) :
    ((runReconcile env).backedUp = true ↔ env.filename ≠ "") ∧
    (∀ msg, (saveTopic env.topic env.content env.saveResp).2 = some msg →
        (runReconcile env).result = some msg ∧
        (runReconcile env).saved = false ∧
        (runReconcile env).removed = false) ∧
    ((saveTopic env.topic env.content env.saveResp).2 = none →
        (runReconcile env).result = none ∧
        (runReconcile env).saved = true) := by
  have hfc : fileChangedM env.content env.topic.originalText = .ok (true, false) := by
    rw [hc]
    simp [fileChangedM, hdiff, hne]
  rcases hsv : saveTopic env.topic env.content env.saveResp with ⟨t1, e1⟩
  have hrun : runReconcile env =
      (match e1 with
       | some e =>
           ⟨env.filename ≠ "" && true && !false, false, false, some e, none⟩
       | none =>
           ⟨env.filename ≠ "" && true && !false, false, true, none, none⟩) := by
    simp only [runReconcile, hedit]
    rw [hfc]
    cases e1 <;> simp [hsv]
  cases e1 with
  | none =>
      refine ⟨?_, ?_, ?_⟩
      · rw [hrun]
        simp
      · intro msg hmsg
        simp at hmsg
      · intro _
        rw [hrun]
        simp
  | some e =>
      refine ⟨?_, ?_, ?_⟩
      · rw [hrun]
        simp
      · intro msg hmsg
        simp only [Prod.snd, Option.some.injEq] at hmsg
        rw [hrun]
        simp [hmsg]
      · intro hnone
        simp at hnone

/-- C1: baseline resolution.  For every topic, `EditText` and
`OriginalText` resolve through the draft when one is present (yielding the
draft's reply text and its recorded original text) and fall back to the
post's raw text when the draft is absent; in particular both accessors
equal the post's raw text on draft-free topics.  The accessors are pure
Lean functions of the topic, mirroring the side-effect-free Go methods. -/
theorem baseline_resolution (t : Topic) :
    (∀ d, t.draft = some d →
        t.editText = d.data.reply ∧ t.originalText = d.data.originalText) ∧
    (t.draft = none → t.editText = t.post.raw ∧ t.originalText = t.post.raw) := by
  refine ⟨fun d hd => ?_, fun hn => ?_⟩
  · simp [Topic.editText, Topic.originalText, hd, Draft.editText, Draft.originalText]
  · simp [Topic.editText, Topic.originalText, hn, Post.editText, Post.originalText]

/-- C1 witness: evaluating the baseline-resolution theorem on concrete
topics with and without a draft. -/
theorem baseline_resolution_witness :
    sampleTopicWithDraft.editText = "Hello there" ∧
    sampleTopicWithDraft.originalText = "Hello world" ∧
    sampleTopicNoDraft.editText = "Hello world" ∧
    sampleTopicNoDraft.originalText = "Hello world" := by
  have h1 := (baseline_resolution sampleTopicWithDraft).1
    { key := "topic_3", topicId := 3, sequence := 2, data := sampleDraftData } (by rfl)
  have h2 := (baseline_resolution sampleTopicNoDraft).2 (by rfl)
  exact ⟨h1.1, h1.2, h2.1, h2.2⟩

/-- C3: conflict check.  `CheckDraft` reports a conflict if and only if a
draft is present whose recorded original text differs from the post's
current raw text; with no draft, or with equal texts, it reports none.
The predicate is a pure function of the topic (a single equality
comparison), mirroring the side-effect-free Go method. -/
theorem checkDraft_conflict_iff (t : Topic) :
    t.checkDraft ≠ none ↔
      ∃ d, t.draft = some d ∧ d.data.originalText ≠ t.post.raw := by
  cases hd : t.draft with
  | none => simp [Topic.checkDraft, hd]
  | some d =>
      simp only [Topic.checkDraft, hd]
      by_cases h : d.originalText ≠ t.post.originalText
      · simp only [if_pos h]
        constructor
        · intro _
          exact ⟨d, rfl, h⟩
        · intro _
          simp
      · simp only [if_neg h]
        push_neg at h
        constructor
        · intro hne
          exact absurd rfl hne
        · rintro ⟨d', hd', hne⟩
          injection hd' with hdd
          exact absurd h (by simpa [hdd, Draft.originalText, Post.originalText] using hne)

/-- C6: draft-clearing invariant.  Whenever `SaveTopic` succeeds (returns
a nil error), the resulting topic's draft is cleared to `none` and its
draft sequence is the one carried by the server's response post.  A topic
holds at most one draft at a time by construction: the single `Draft`
pointer field is embedded as one `Option Draft`, which every operation
preserves. -/
theorem saveTopic_success_clears_draft (t : Topic) (content : Option String)
    (resp : Except String Post) :
    (saveTopic t content resp).2 = none →
      (saveTopic t content resp).1.draft = none ∧
      ∃ p, resp = .ok p ∧ (saveTopic t content resp).1.draftSequence = p.draftSequence := by
  intro hok
  cases content with
  | none => simp [saveTopic] at hok
  | some data =>
      cases resp with
      | error e => simp [saveTopic] at hok
      | ok p => exact ⟨by simp [saveTopic], p, rfl, by simp [saveTopic]⟩

/-- C6 witness: a successful concrete save clears the draft and adopts the
response's draft sequence. -/
theorem saveTopic_success_clears_draft_witness :
    (saveTopic sampleTopicWithDraft (some "Hello there") (.ok samplePost)).1.draft = none ∧
    (saveTopic sampleTopicWithDraft (some "Hello there") (.ok samplePost)).1.draftSequence = 2 := by
  have h := saveTopic_success_clears_draft sampleTopicWithDraft (some "Hello there")
    (.ok samplePost) (by rfl)
  obtain ⟨hd, p, hp, hs⟩ := h
  refine ⟨hd, ?_⟩
  have hp2 : p = samplePost := by
    injection hp with h2
    exact h2.symm
  rw [hs, hp2]
  rfl

/-- C10: save atomicity on failure.  Whenever `SaveTopic` or `SaveDraft`
returns an error — a local file-read failure, a transport/HTTP failure, or
(for drafts) a response whose `success` field is not `"OK"` — the topic is
returned unchanged: its post, draft and draft sequence all keep their
prior values.  Mutation happens only after the remote call has fully
succeeded. -/
theorem save_failure_leaves_topic_unchanged (t : Topic) (content : Option String)
    (rp : Except String Post) (rd : Except String DraftSaveResp) :
    ((saveTopic t content rp).2 ≠ none → (saveTopic t content rp).1 = t) ∧
    ((saveDraft t content rd).2 ≠ none → (saveDraft t content rd).1 = t) := by
  constructor
  · intro herr
    cases content with
    | none => rfl
    | some data =>
        cases rp with
        | error e => rfl
        | ok p => simp [saveTopic] at herr
  · intro herr
    cases content with
    | none => rfl
    | some data =>
        cases rd with
        | error e => rfl
        | ok r =>
            by_cases hs : r.success ≠ "OK"
            · simp [saveDraft, hs]
            · simp [saveDraft, hs] at herr

/-- C10 witness: concrete failing saves (a transport failure for the post
save; a non-`"OK"` success field for the draft save) leave a concrete
topic untouched. -/
theorem save_failure_leaves_topic_unchanged_witness :
    (saveTopic sampleTopicWithDraft (some "x") (.error "got 500 status")).1 =
      sampleTopicWithDraft ∧
    (saveDraft sampleTopicWithDraft (some "x")
        (.ok { success := "failed", draftSequence := 9 })).1 = sampleTopicWithDraft := by
  constructor
  · exact (save_failure_leaves_topic_unchanged sampleTopicWithDraft (some "x")
      (.error "got 500 status") (.error "unused")).1 (by decide)
  · exact (save_failure_leaves_topic_unchanged sampleTopicWithDraft (some "x")
      (.error "unused") (.ok { success := "failed", draftSequence := 9 })).2 (by decide)

/-- C2: watcher action per detected change.  On a tick where the stat
succeeded with a new modification time and the trimmed content is
non-empty and differs from the trimmed baseline: a direct post save is
attempted exactly when live-edit is enabled; a draft save is attempted
exactly when live-edit is disabled or the post save failed; and after a
successful action the state carries the new modification time and a
baseline text refreshed from the entity model's `EditText`. -/
theorem watcher_change_action (live : Bool) (s : TickState) (i : TickInput)
    (m : Int) (c : String)
    (hstat : i.curstat = some m) (hm : m ≠ s.modTime)
    (hc : i.content = some c)
    (hdiff : trimSpace c ≠ trimSpace s.text)
    (hne : (trimSpace c).length ≠ 0) :
    ((watcherTick live s i).postAttempted = live) ∧
    ((watcherTick live s i).draftAttempted = true ↔
        live = false ∨ (saveTopic s.topic i.content i.postResp).2 ≠ none) ∧
    (live = true → (saveTopic s.topic i.content i.postResp).2 = none →
        (watcherTick live s i).state =
          ⟨m, (saveTopic s.topic i.content i.postResp).1.editText,
             (saveTopic s.topic i.content i.postResp).1⟩) ∧
    (live = true → (saveTopic s.topic i.content i.postResp).2 ≠ none →
        (saveDraft s.topic i.content i.draftResp).2 = none →
        (watcherTick live s i).state =
          ⟨m, (saveDraft s.topic i.content i.draftResp).1.editText,
             (saveDraft s.topic i.content i.draftResp).1⟩) ∧
    (live = false → (saveDraft s.topic i.content i.draftResp).2 = none →
        (watcherTick live s i).state =
          ⟨m, (saveDraft s.topic i.content i.draftResp).1.editText,
             (saveDraft s.topic i.content i.draftResp).1⟩) := by
  have hfc : fileChangedM i.content s.text = .ok (true, false) := by
    rw [hc]
    simp [fileChangedM, hdiff, hne]
  have hW : watcherTick live s i =
      (if live then
        let r1 := saveTopic s.topic i.content i.postResp
        if r1.2 = none then ⟨⟨m, r1.1.editText, r1.1⟩, true, false⟩
        else
          let r2 := saveDraft r1.1 i.content i.draftResp
          if r2.2 = none then ⟨⟨m, r2.1.editText, r2.1⟩, true, true⟩
          else ⟨⟨s.modTime, s.text, r2.1⟩, true, true⟩
      else
        let r2 := saveDraft s.topic i.content i.draftResp
        if r2.2 = none then ⟨⟨m, r2.1.editText, r2.1⟩, false, true⟩
        else ⟨⟨s.modTime, s.text, r2.1⟩, false, true⟩) := by
    simp [watcherTick, hstat, hfc, if_neg hm]
  cases live with
  | false =>
      by_cases hd2 : (saveDraft s.topic i.content i.draftResp).2 = none
      · simp [hW, hd2]
      · simp [hW, hd2]
  | true =>
      by_cases hp : (saveTopic s.topic i.content i.postResp).2 = none
      · simp [hW, hp]
      · have ht1 : (saveTopic s.topic i.content i.postResp).1 = s.topic :=
          saveTopic_fst_of_error s.topic i.content i.postResp hp
        by_cases hd2 : (saveDraft s.topic i.content i.draftResp).2 = none
        · simp [hW, hp, ht1, hd2]
        · simp [hW, hp, ht1, hd2]

/-- C2 witness: with live-edit disabled, a concrete changed tick attempts
no post save, attempts a draft save, and refreshes the baseline from
`EditText`. -/
theorem watcher_change_action_witness :
    (watcherTick false sampleTickState sampleTickInput).postAttempted = false ∧
    (watcherTick false sampleTickState sampleTickInput).draftAttempted = true ∧
    (watcherTick false sampleTickState sampleTickInput).state.text =
      (watcherTick false sampleTickState sampleTickInput).state.topic.editText := by
  have h := watcher_change_action false sampleTickState sampleTickInput 1 "Hello there"
    rfl (by decide) rfl (by decide) (by decide)
  refine ⟨h.1, h.2.1.2 (Or.inl rfl), ?_⟩
  have h5 := h.2.2.2.2 rfl (by decide)
  rw [h5]

/-- C5 counterexample: when the editor process terminates unsuccessfully,
the foreground of `edit` returns the error without ever closing the stop
channel or waiting on the done channel, so the claimed signal-and-wait
does not happen on every termination. -/
theorem editor_exit_signal_counterexample :
    FgEvent.closeStop ∉ editForeground false ∧
    FgEvent.awaitDone ∉ editForeground false ∧
    FgEvent.returnErr ∈ editForeground false := by decide

/-- C5 (amended): the foreground signals stop and awaits the watcher's
completion exactly when the editor exited successfully, and then it does
so in order — editor termination, stop signal, completion wait — before
returning; on an editor error it returns without signaling or waiting. -/
theorem editor_exit_ordering (b : Bool) :
    ((FgEvent.closeStop ∈ editForeground b) ↔ b = true) ∧
    ((FgEvent.awaitDone ∈ editForeground b) ↔ b = true) ∧
    (b = true → editForeground b =
      [FgEvent.runEditor, FgEvent.closeStop, FgEvent.awaitDone, FgEvent.returnOk]) := by
  cases b <;> decide

/-- C5 witness: the successful-exit trace evaluated concretely. -/
theorem editor_exit_ordering_witness :
    editForeground true =
      [FgEvent.runEditor, FgEvent.closeStop, FgEvent.awaitDone, FgEvent.returnOk] :=
  (editor_exit_ordering true).2.2 rfl

/-- C7: empty-file abort.  At final reconciliation, whenever the edited
file reads back as empty after trimming, the session aborts: the
temporary file is removed, no backup rename is registered, no save is
performed, and the fixed error is returned — for every environment, hence
regardless of the live-edit flag, of prior live-edit saves (any topic
state), and of whether the empty content differs from the baseline. -/
theorem empty_file_aborts (env : RunEnv) (c : String)
    (hedit : env.editErr = none) (hc : env.content = some c)
    (hempty : (trimSpace c).length = 0) :
    (runReconcile env).removed = true ∧
    (runReconcile env).backedUp = false ∧
    (runReconcile env).saved = false ∧
    (runReconcile env).result = some "no content provided, aborting" := by
  have hfc : fileChangedM env.content env.topic.originalText =
      .ok (decide (trimSpace c ≠ trimSpace env.topic.originalText), true) := by
    rw [hc]
    simp [fileChangedM, hempty]
  simp [runReconcile, hedit, hfc]

/-- C7 witness: a whitespace-only file aborts even when it differs from
the (non-empty) baseline and live-edit is on. -/
theorem empty_file_aborts_witness :
    (runReconcile emptyFileEnv).removed = true ∧
    (runReconcile emptyFileEnv).result = some "no content provided, aborting" := by
  have h := empty_file_aborts emptyFileEnv "  \n " rfl rfl (by decide)
  exact ⟨h.1, h.2.2.2⟩

/-- C8 counterexample: a session in which the editor command failed after
a real edit (non-empty, different from the baseline) was written to the
temporary file does not end in a successful save, yet triggers no backup
rename: `run` returns the editor error before `fileChanged` is consulted,
so the `different` flag keeps its zero value and the deferred
`renameToLast` is never registered. -/
theorem backup_on_abort_counterexample :
    (trimSpace "Edited content!" ≠ trimSpace abortedEditEnv.topic.originalText) ∧
    (trimSpace "Edited content!").length ≠ 0 ∧
    (runReconcile abortedEditEnv).result ≠ none ∧
    (runReconcile abortedEditEnv).saved = false ∧
    (runReconcile abortedEditEnv).backedUp = false := by decide

/-- C8 (amended): every session whose final comparison runs and reports a
real edit (file read back, non-empty, different from the current
baseline) registers the backup rename — it runs whether or not the final
save succeeds, and in particular a failed final save still has the backup
rename in place when its error propagates; sessions that end before the
comparison (editor failure, file-read failure) return without a backup. -/
theorem backup_on_real_edit (env : RunEnv) (c : String)
    (hedit : env.editErr = none) (hc : env.content = some c)
    (hdiff : trimSpace c ≠ trimSpace env.topic.originalText)
    (hne : (trimSpace c).length ≠ 0)
    (hname : env.filename ≠ "") :
    (runReconcile env).backedUp = true ∧
    (∀ msg, (saveTopic env.topic env.content env.saveResp).2 = some msg →
        (runReconcile env).result = some msg ∧
        (runReconcile env).saved = false) := by
  have h := runReconcile_realEdit env c hedit hc hdiff hne
  exact ⟨h.1.2 hname, fun msg hmsg => ⟨(h.2.1 msg hmsg).1, (h.2.1 msg hmsg).2.1⟩⟩

/-- C8 witness: a failed final save on a real edit still backs up the
temporary file and propagates the save error. -/
theorem backup_on_real_edit_witness :
    (runReconcile failedSaveEnv).backedUp = true ∧
    (runReconcile failedSaveEnv).result =
      some "cannot perform request: got 500 status" := by
  have h := backup_on_real_edit failedSaveEnv "Hello there"
    rfl rfl (by decide) (by decide) (by decide)
  exact ⟨h.1, (h.2 "cannot perform request: got 500 status" (by rfl)).1⟩

/-- C9 counterexample: during live-edit polling a post update that fails
with exactly the HTTP 409 error of `Forum.do` is not surfaced: the
watcher falls back to a draft save, the tick completes as a successful
action with the baseline refreshed, and the goroutine has no channel for
reporting the error (failures are only debug-logged), so the draft
fallback does suppress the conflict error. -/
theorem conflict_surfacing_counterexample :
    doStatusError 409 "/posts/7.json" [] =
      some "someone else edited the same content meanwhile" ∧
    conflictTickInput.postResp =
      .error "someone else edited the same content meanwhile" ∧
    (watcherTick true sampleTickState conflictTickInput).postAttempted = true ∧
    (watcherTick true sampleTickState conflictTickInput).draftAttempted = true ∧
    (watcherTick true sampleTickState conflictTickInput).state.text =
      (watcherTick true sampleTickState conflictTickInput).state.topic.editText := by
  refine ⟨by decide, rfl, ?_, ?_, ?_⟩ <;> decide

/-- C9 (amended): `Forum.do` maps HTTP 409 on a post update to the
verbatim error "someone else edited the same content meanwhile"
irrespective of the response body, and on the final reconciliation save
this error propagates unchanged to the operator with no draft fallback
(the reconciliation performs no draft save); during live-edit polling,
however, the watcher falls back to a draft save and only debug-logs the
error. -/
theorem conflict_409_surfaced (path : String) (es : List String)
    (env : RunEnv) (c : String)
    (hedit : env.editErr = none) (hc : env.content = some c)
    (hdiff : trimSpace c ≠ trimSpace env.topic.originalText)
    (hne : (trimSpace c).length ≠ 0)
    (hresp : env.saveResp = .error "someone else edited the same content meanwhile") :
    doStatusError 409 path es =
      some "someone else edited the same content meanwhile" ∧
    (runReconcile env).result =
      some "someone else edited the same content meanwhile" ∧
    (runReconcile env).saved = false := by
  have h := runReconcile_realEdit env c hedit hc hdiff hne
  have hmsg : (saveTopic env.topic env.content env.saveResp).2 =
      some "someone else edited the same content meanwhile" := by
    rw [hc, hresp]
    rfl
  have h2 := h.2.1 _ hmsg
  exact ⟨by simp [doStatusError], h2.1, h2.2.1⟩

/-- C9 witness: the final-save 409 evaluated concretely. -/
theorem conflict_409_surfaced_witness :
    (runReconcile conflictSaveEnv).result =
      some "someone else edited the same content meanwhile" := by
  have h := conflict_409_surfaced "/posts/7.json" [] conflictSaveEnv "Hello there"
    rfl rfl (by decide) (by decide) rfl
  exact h.2.1

/-- Helper: consuming an expected literal chunk succeeds on exactly that
chunk. -/
theorem expects_append (lit rest : List Char) :
    expects lit (lit ++ rest) = some rest := by
  induction lit with
  | nil => rfl
  | cons c cs ih => simp [expects, ih]

/-- Helper: `expects_append` in the cons-normalised shape produced by
list concatenation. -/
theorem expects_cons_append (c : Char) (cs rest : List Char) :
    expects (c :: cs) (c :: (cs ++ rest)) = some rest := by
  have h := expects_append (c :: cs) rest
  simpa using h

/-- Helper: the hex digit emitted by the encoder decodes to its value. -/
theorem hexVal_hexDigitChar (n : Nat) (h : n < 16) :
    hexVal (hexDigitChar n) = some n := by
  interval_cases n <;> decide

/-- Helper: decoding one encoded character from the front of the input
prepends that character to the decoded remainder. -/
theorem parseStringBody_encodeChar (c : Char) (r s tail : List Char)
    (hr : parseStringBody r = some (s, tail)) :
    parseStringBody (encodeChar c ++ r) = some (c :: s, tail) := by
  by_cases h1 : c = '\"'
  · subst h1
    have he : encodeChar '\"' = ['\\', '\"'] := by decide
    rw [he]
    simp only [List.cons_append, List.nil_append]
    rw [parseStringBody.eq_def]
    simp only [reduceIte]
    simp [simpleEscape, hr]
  by_cases h2 : c = '\\'
  · subst h2
    have he : encodeChar '\\' = ['\\', '\\'] := by decide
    rw [he]
    simp only [List.cons_append, List.nil_append]
    rw [parseStringBody.eq_def]
    simp only [reduceIte]
    simp [simpleEscape, hr]
  by_cases h3 : c = Char.ofNat 10
  · subst h3
    have he : encodeChar (Char.ofNat 10) = ['\\', 'n'] := by decide
    rw [he]
    simp only [List.cons_append, List.nil_append]
    rw [parseStringBody.eq_def]
    simp only [reduceIte]
    simp [simpleEscape, hr]
  by_cases h4 : c = Char.ofNat 13
  · subst h4
    have he : encodeChar (Char.ofNat 13) = ['\\', 'r'] := by decide
    rw [he]
    simp only [List.cons_append, List.nil_append]
    rw [parseStringBody.eq_def]
    simp only [reduceIte]
    simp [simpleEscape, hr]
  by_cases h5 : c = Char.ofNat 9
  · subst h5
    have he : encodeChar (Char.ofNat 9) = ['\\', 't'] := by decide
    rw [he]
    simp only [List.cons_append, List.nil_append]
    rw [parseStringBody.eq_def]
    simp only [reduceIte]
    simp [simpleEscape, hr]
  by_cases h6 : c.toNat < 32 ∨ c = '<' ∨ c = '>' ∨ c = '&'
  · have hn : c.toNat < 256 := by
      rcases h6 with h | h | h | h
      · omega
      all_goals (subst h; decide)
    have hdiv : c.toNat / 16 < 16 := by omega
    have hmod : c.toNat % 16 < 16 := by omega
    have hval : Char.ofNat c.toNat = c := Char.ofNat_toNat c
    simp only [encodeChar, if_neg h1, if_neg h2, if_neg h3, if_neg h4, if_neg h5,
      if_pos h6, List.cons_append, List.nil_append]
    rw [parseStringBody.eq_def]
    simp only [reduceIte]
    simp only [hexVal_hexDigitChar _ hdiv, hexVal_hexDigitChar _ hmod]
    have h0 : hexVal '0' = some 0 := by decide
    simp only [h0]
    have hrec : ((0 * 16 + 0) * 16 + c.toNat / 16) * 16 + c.toNat % 16 = c.toNat := by
      omega
    simp only [hrec]
    rw [if_neg (show ¬(0xD800 ≤ c.toNat ∧ c.toNat < 0xE000) by omega)]
    rw [hval, hr]
    simp
  by_cases h7 : c.toNat = 0x2028 ∨ c.toNat = 0x2029
  · have hmod : c.toNat % 16 < 16 := by omega
    have hlo : c.toNat < 0xD800 := by
      rcases h7 with h | h <;> omega
    have hval : Char.ofNat c.toNat = c := Char.ofNat_toNat c
    simp only [encodeChar, if_neg h1, if_neg h2, if_neg h3, if_neg h4, if_neg h5,
      if_neg h6, if_pos h7, List.cons_append, List.nil_append]
    rw [parseStringBody.eq_def]
    simp only [reduceIte]
    simp only [hexVal_hexDigitChar _ hmod]
    have h0 : hexVal '0' = some 0 := by decide
    have h2c : hexVal '2' = some 2 := by decide
    simp only [h0, h2c]
    have hrec : ((2 * 16 + 0) * 16 + 2) * 16 + c.toNat % 16 = c.toNat := by
      rcases h7 with h | h <;> omega
    simp only [hrec]
    rw [if_neg (show ¬(0xD800 ≤ c.toNat ∧ c.toNat < 0xE000) by omega)]
    rw [hval, hr]
    simp
  · have hge : 32 ≤ c.toNat := by
      push_neg at h6
      exact h6.1
    simp only [encodeChar, if_neg h1, if_neg h2, if_neg h3, if_neg h4, if_neg h5,
      if_neg h6, if_neg h7, List.cons_append, List.nil_append]
    rw [parseStringBody.eq_def]
    simp only [if_neg h1, if_neg h2, if_pos hge, hr]

/-- Helper: the string-body decoder inverts the string-body encoder. -/
theorem parseStringBody_encode (s tail : List Char) :
    parseStringBody (encodeStringBody s ++ '\"' :: tail) = some (s, tail) := by
  induction s with
  | nil =>
      have hnil : encodeStringBody [] = [] := by simp [encodeStringBody]
      rw [hnil, List.nil_append, parseStringBody.eq_def]
      simp
  | cons c s ih =>
      have hcons : encodeStringBody (c :: s) = encodeChar c ++ encodeStringBody s := by
        simp [encodeStringBody]
      rw [hcons, List.append_assoc]
      exact parseStringBody_encodeChar c _ s tail ih

/-- Helper: a quoted JSON string followed by anything decodes to its
content and the remainder. -/
theorem parseQuotedString_quote (s tail : List Char) :
    parseQuotedString (quoteChars s ++ tail) = some (s, tail) := by
  have hshape : quoteChars s ++ tail = '\"' :: (encodeStringBody s ++ '\"' :: tail) := by
    simp [quoteChars]
  rw [hshape]
  simpa [parseQuotedString] using parseStringBody_encode s tail

/-- Helper: decimal digit characters are digits. -/
theorem digitToChar_isDigit (d : Nat) (h : d < 10) :
    (digitToChar d).isDigit = true := by
  interval_cases d <;> decide

/-- Helper: value of a decimal digit character. -/
theorem digitToChar_val (d : Nat) (h : d < 10) :
    (digitToChar d).toNat - 48 = d := by
  interval_cases d <;> decide

/-- Helper: every character of a decimal rendering is a digit. -/
theorem natToChars_all_digits (n : Nat) :
    ∀ c ∈ natToChars n, c.isDigit = true := by
  intro c hc
  by_cases h0 : n = 0
  · subst h0
    simp [natToChars] at hc
    subst hc
    decide
  · simp only [natToChars, if_neg h0] at hc
    rcases List.mem_map.mp hc with ⟨d, hd, hdc⟩
    have hd10 : d < 10 :=
      Nat.digits_lt_base (by norm_num) (List.mem_reverse.mp hd)
    rw [← hdc]
    exact digitToChar_isDigit d hd10

/-- Helper: a decimal rendering is never empty. -/
theorem natToChars_ne_nil (n : Nat) : natToChars n ≠ [] := by
  by_cases h0 : n = 0
  · subst h0
    simp [natToChars]
  · simp only [natToChars, if_neg h0]
    simp only [ne_eq, List.map_eq_nil_iff, List.reverse_eq_nil_iff]
    exact Nat.digits_ne_nil_iff_ne_zero.mpr h0

/-- Helper: appending one character to the digit accumulator. -/
theorem digitsVal_append_singleton (xs : List Char) (x : Char) :
    digitsVal (xs ++ [x]) = digitsVal xs * 10 + (x.toNat - 48) := by
  simp [digitsVal, List.foldl_append]

/-- Helper: the digit-character value of a reversed digit list is the
number the digits denote. -/
theorem digitsVal_reverse_map (l : List Nat) (hall : ∀ d ∈ l, d < 10) :
    digitsVal (l.reverse.map digitToChar) = Nat.ofDigits 10 l := by
  induction l with
  | nil => simp [digitsVal, Nat.ofDigits_nil]
  | cons d l ih =>
      have hd := hall d (by simp)
      have ih2 := ih fun e he => hall e (by simp [he])
      rw [List.reverse_cons, List.map_append]
      simp only [List.map_cons, List.map_nil]
      rw [digitsVal_append_singleton, ih2, digitToChar_val d hd, Nat.ofDigits_cons]
      ring

/-- Helper: the decimal rendering evaluates back to its number. -/
theorem digitsVal_natToChars (n : Nat) : digitsVal (natToChars n) = n := by
  by_cases h0 : n = 0
  · subst h0
    decide
  · simp only [natToChars, if_neg h0]
    rw [digitsVal_reverse_map (Nat.digits 10 n)
      (fun d hd => Nat.digits_lt_base (by norm_num) hd)]
    exact Nat.ofDigits_digits 10 n

/-- Helper: `takeWhile`/`dropWhile` split an all-true chunk off the
front when the remainder starts falsy. -/
theorem takeWhile_dropWhile_append (p : Char → Bool) (ds rest : List Char)
    (hall : ∀ c ∈ ds, p c = true)
    (hrest : ∀ c, rest.head? = some c → p c = false) :
    (ds ++ rest).takeWhile p = ds ∧ (ds ++ rest).dropWhile p = rest := by
  induction ds with
  | nil =>
      cases rest with
      | nil => simp
      | cons r rs =>
          have hpr := hrest r rfl
          simp [List.takeWhile_cons, List.dropWhile_cons, hpr]
  | cons a as ih =>
      have ha := hall a (by simp)
      have ih2 := ih fun c hc => hall c (by simp [hc])
      simp [List.takeWhile_cons, List.dropWhile_cons, ha, ih2.1, ih2.2]

/-- Helper: the number decoder inverts the decimal rendering when the
remainder does not continue with a digit. -/
theorem parseNat_natToChars (n : Nat) (rest : List Char)
    (hrest : ∀ c, rest.head? = some c → c.isDigit = false) :
    parseNat (natToChars n ++ rest) = some (n, rest) := by
  have hsplit := takeWhile_dropWhile_append (fun c => c.isDigit) (natToChars n) rest
    (natToChars_all_digits n) hrest
  simp only [parseNat, hsplit.1, hsplit.2]
  rw [if_neg (by simpa [List.isEmpty_iff] using natToChars_ne_nil n)]
  rw [digitsVal_natToChars]

/-- Helper: the signed decoder inverts the signed rendering when the
remainder does not continue with a digit. -/
theorem parseInt_intToChars (i : Int) (rest : List Char)
    (hrest : ∀ c, rest.head? = some c → c.isDigit = false) :
    parseInt (intToChars i ++ rest) = some (i, rest) := by
  by_cases hi : i < 0
  · simp only [intToChars, if_pos hi, List.cons_append]
    rw [parseInt.eq_def]
    simp only [reduceIte]
    rw [parseNat_natToChars i.natAbs rest hrest]
    simp [abs_of_neg hi]
  · simp only [intToChars, if_neg hi]
    obtain ⟨c, cs, hcons⟩ : ∃ c cs, natToChars i.toNat = c :: cs := by
      rcases h : natToChars i.toNat with _ | ⟨c, cs⟩
      · exact absurd h (natToChars_ne_nil i.toNat)
      · exact ⟨c, cs, rfl⟩
    have hdig : c.isDigit = true := by
      have hall := natToChars_all_digits i.toNat
      rw [hcons] at hall
      exact hall c (by simp)
    have hnotminus : ¬c = '-' := by
      intro hcm
      rw [hcm] at hdig
      exact absurd hdig (by decide)
    have hpn : parseNat (c :: (cs ++ rest)) = some (i.toNat, rest) := by
      rw [← List.cons_append, ← hcons]
      exact parseNat_natToChars i.toNat rest hrest
    have hcast : (i.toNat : Int) = i := Int.toNat_of_nonneg (by omega)
    rw [hcons, List.cons_append, parseInt.eq_def]
    simp [hnotminus, hpn, hcast]

/-- Helper: an integer field value followed by a comma decodes exactly. -/
theorem parseInt_before_comma (i : Int) (rest : List Char) :
    parseInt (intToChars i ++ ',' :: rest) = some (i, ',' :: rest) := by
  apply parseInt_intToChars
  intro c hc
  simp only [List.head?_cons, Option.some.injEq] at hc
  rw [← hc]
  decide

/-- Helper: the boolean decoder inverts the boolean rendering. -/
theorem parseBool_boolToChars (b : Bool) (rest : List Char) :
    parseBool (boolToChars b ++ rest) = some (b, rest) := by
  cases b <;> simp [boolToChars, parseBool, expects]

/-- Helper: a single expected character. -/
theorem expects_single (c : Char) (rest : List Char) :
    expects [c] (c :: rest) = some rest := by
  simp [expects]

/-- Helper: a string field in the shape the marshaller emits. -/
theorem parseStrField_cons (c : Char) (key s tail : List Char) :
    parseStrField (c :: key) (c :: (key ++ (quoteChars s ++ tail))) = some (s, tail) := by
  have he : expects (c :: key) (c :: (key ++ (quoteChars s ++ tail))) =
      some (quoteChars s ++ tail) := expects_cons_append c key (quoteChars s ++ tail)
  simp [parseStrField, he, parseQuotedString_quote]

/-- Helper: an integer field in the shape the marshaller emits. -/
theorem parseIntField_cons (c : Char) (key : List Char) (i : Int) (rest : List Char) :
    parseIntField (c :: key) (c :: (key ++ (intToChars i ++ ',' :: rest))) =
      some (i, ',' :: rest) := by
  have he : expects (c :: key) (c :: (key ++ (intToChars i ++ ',' :: rest))) =
      some (intToChars i ++ ',' :: rest) :=
    expects_cons_append c key (intToChars i ++ ',' :: rest)
  simp [parseIntField, he, parseInt_before_comma]

/-- Helper: rebuilding a string from its character data is the
identity. -/
theorem stringMk_data (s : String) : String.mk s.data = s := rfl

/-- Helper: the inner object decoder inverts the inner object encoder. -/
theorem parseDraftDataChars_marshal (dd : DraftData) (tail : List Char) :
    parseDraftDataChars (marshalDraftDataChars dd ++ tail) = some (dd, tail) := by
  simp only [marshalDraftDataChars, List.append_assoc, List.cons_append, List.nil_append]
  simp [parseDraftDataChars, parseStringsPart, parseNumsPart, parseStrField_cons,
    parseIntField_cons, parseBool_boolToChars, expects_single, expects_cons_append,
    stringMk_data]

/-- C4: double-encoding round trip.  For every `DraftData` value,
serializing it through `MarshalJSON` (the payload's own JSON
representation, itself encoded as a JSON string value — by definition,
`draftDataMarshalJSON dd = quoteChars (marshalDraftDataChars dd)`, which
is exactly the double-encoded form the read path consumes) and
deserializing the result through `UnmarshalJSON` yields a `DraftData`
structurally equal to the original. -/
theorem draftData_double_encoding_roundtrip (dd : DraftData) :
    DraftData.unmarshalJSON (DraftData.marshalJSON dd) = some dd := by
  show draftDataUnmarshalJSON (draftDataMarshalJSON dd) = some dd
  unfold draftDataMarshalJSON draftDataUnmarshalJSON
  have h1 : parseQuotedString (quoteChars (marshalDraftDataChars dd)) =
      some (marshalDraftDataChars dd, []) := by
    have h := parseQuotedString_quote (marshalDraftDataChars dd) []
    simpa using h
  rw [h1]
  have h2 : parseDraftDataChars (marshalDraftDataChars dd) = some (dd, []) := by
    have h := parseDraftDataChars_marshal dd []
    simpa using h
  simp [h2]

end Discedit
